import Mathlib

/-!
Verification of the proxmox-cleanup core pipeline.

This file gives a shallow embedding, in Lean 4, of the safety-critical
cleanup pipeline of the repository: the resource data model
(`src/types/index.ts`), the protection filter (`ResourceFilter` in
`src/utils`), the size accountant's verification check (`SizeCalculator`),
the backup filename generator (`BackupManager`), the resource scanner
(`ResourceScanner`), and the cleanup orchestrator (`CleanupOrchestrator`).

External collaborators (the Docker/Proxmox client, the filesystem, the
shell) are modelled as explicit parameters: listing calls are read-only
functions of an abstract backing state `σ`, destructive remove calls are
state transformers that may fail, and every destructive invocation is
recorded in an explicit call trace.  JavaScript numbers that only ever
hold byte counts are modelled as `Nat`; the tolerance arithmetic of
`verifySpaceFreed` is modelled over `ℚ`.  JavaScript exceptions are
modelled with `Except String`.
-/

namespace ProxmoxCleanup

/-! ### Data model (`src/types/index.ts`) -/

/-- `ResourceType` from `src/types/index.ts` line 6:
`'container' | 'image' | 'volume' | 'network' | 'cache'`. -/
inductive ResourceType where
  | container
  | image
  | volume
  | network
  | cache
deriving DecidableEq, Repr

/-- Container `status` field: `'running' | 'stopped' | 'exited'`. -/
inductive ContainerStatus where
  | running
  | stopped
  | exited
deriving DecidableEq, Repr

/-- A resource record.  The TypeScript source uses a discriminated union
(`Resource` plus `ContainerResource`/`ImageResource`/`VolumeResource`/
`NetworkResource`); we flatten it into one record carrying every
kind-specific field, with neutral defaults for fields a given kind does
not use.  Dates (`createdAt`, `lastUsed`) are modelled as milliseconds
since the epoch. -/
structure Resource where
  id : String
  name : String
  type : ResourceType
  size : Nat
  createdAt : Nat := 0
  lastUsed : Option Nat := none
  tags : List String := []
  /-- `ContainerResource.status` -/
  status : ContainerStatus := ContainerStatus.exited
  /-- `ContainerResource.imageId` -/
  imageId : String := ""
  /-- `ContainerResource.volumes` -/
  volumes : List String := []
  /-- `ImageResource.repository` -/
  repository : String := ""
  /-- `ImageResource.tag` -/
  tag : String := ""
  /-- `ImageResource.usedByContainers` / `VolumeResource.usedByContainers` -/
  usedByContainers : List String := []
  /-- `VolumeResource.mountPoint` -/
  mountPoint : String := ""
  /-- `NetworkResource.driver` -/
  driver : String := ""
  /-- `NetworkResource.connectedContainers` -/
  connectedContainers : List String := []
deriving DecidableEq, Repr

/-! ### Protection filter (`ResourceFilter` in `src/utils`) -/

/-- Line-terminator characters of JavaScript regular expressions: without
the `s` (dotAll) flag, `.` matches any character except these four. -/
def isLineTerminator (c : Char) : Bool :=
  c = '\n' || c = '\r' || c = '\u2028' || c = '\u2029'

/-- `pattern.split('*')`: the literal segments of a wildcard pattern.
Never returns `[]` (JavaScript `"".split('*')` is `[""]`). -/
def splitStar : List Char → List (List Char)
  | [] => [[]]
  | c :: rest =>
    if c = '*' then [] :: splitStar rest
    else
      match splitStar rest with
      | [] => [[c]]
      | s :: ss => (c :: s) :: ss

/-- Matching semantics of the regular expression built by
`ResourceFilter.wildcardToRegex` (`src/utils`, `SizeCalculator.ts`
lines 346-352): the pattern is split on `*` into literal segments
(every other character is regex-escaped), each `*` becomes `.*`, and
the whole is anchored with `^...$`.  Because the `RegExp` is created
without the `s` flag, each `.` matches any character except a line
terminator.  `segMatch false segs name` decides whether the anchored
regex `seg₀ .* seg₁ .* ... .* segₖ` matches `name`;
`segMatch true segs name` decides whether `.* seg₀ .* ... .* segₖ`
matches `name`. -/
def segMatch : Bool → List (List Char) → List Char → Bool
  | false, [], n => n.isEmpty
  | false, [s], n => decide (n = s)
  | false, s :: s' :: ss, n =>
    decide (n.take s.length = s) && segMatch true (s' :: ss) (n.drop s.length)
  | true, ss, [] => segMatch false ss []
  | true, ss, c :: m =>
    segMatch false ss (c :: m) || (!isLineTerminator c && segMatch true ss m)
termination_by star ss n => (ss.length, n.length, if star then 1 else 0)

/-- `wildcardToRegex(pattern).test(name)`. -/
def wildcardTest (pat name : String) : Bool :=
  segMatch false (splitStar pat.data) name.data

/-- `String.prototype.startsWith`, modelled on the character list. -/
def jsStartsWith (s pre : String) : Bool :=
  decide (s.data.take pre.data.length = pre.data)

/-- `String.prototype.substring(k)`, modelled on the character list. -/
def jsDrop (s : String) (k : Nat) : String :=
  String.mk (s.data.drop k)

/-- `String.prototype.includes(c)` for a single character. -/
def jsContainsChar (s : String) (c : Char) : Bool :=
  s.data.any fun d => d = c

/-- `ResourceFilter.isProtected` (`src/utils`): a resource is protected if
any configured pattern matches it; `tag:` prefixed patterns match against
the tag set, `id:` prefixed patterns against the id, patterns containing
`*` as a wildcard over the name, all other patterns as exact name
equality. -/
def isProtected (patterns : List String) (r : Resource) : Bool :=
  patterns.any fun pat =>
    if jsStartsWith pat "tag:" then r.tags.any fun t => t = jsDrop pat 4
    else if jsStartsWith pat "id:" then decide (r.id = jsDrop pat 3)
    else if jsContainsChar pat '*' then wildcardTest pat r.name
    else decide (r.name = pat)

/-- `ResourceFilter.filterProtected`: drop protected resources, then, only
when `allowedTypes` is non-empty, keep only resources of an allowed type. -/
def filterProtected (patterns : List String) (allowedTypes : List ResourceType)
    (resources : List Resource) : List Resource :=
  if allowedTypes.length > 0 then
    (resources.filter fun r => !isProtected patterns r).filter
      fun r => allowedTypes.contains r.type
  else
    resources.filter fun r => !isProtected patterns r

/-- The protection-pattern glob as the specification words it: `*` matches
any substring, every other character matches literally, with implicit
anchors at both ends. -/
def specGlobAny : List Char → List Char → Bool
  | [], [] => true
  | [], _ :: _ => false
  | p :: ps, [] => p = '*' && specGlobAny ps []
  | p :: ps, c :: n =>
    if p = '*' then specGlobAny ps (c :: n) || specGlobAny (p :: ps) n
    else p = c && specGlobAny ps n
termination_by p n => (p.length, n.length)

/-- The glob of `specGlobAny` amended by the counterexample: the substring
matched by `*` may not contain a line-terminator character (because the
source compiles `*` to the regex wildcard `.`, which excludes them). -/
def specGlobNoLT : List Char → List Char → Bool
  | [], [] => true
  | [], _ :: _ => false
  | p :: ps, [] => p = '*' && specGlobNoLT ps []
  | p :: ps, c :: n =>
    if p = '*' then
      specGlobNoLT ps (c :: n) || (!isLineTerminator c && specGlobNoLT (p :: ps) n)
    else p = c && specGlobNoLT ps n
termination_by p n => (p.length, n.length)

/-- Protection predicate transcribed from the specification's pattern
grammar, parameterised by the glob matcher (`specGlobAny` for the claim
as stated, `specGlobNoLT` for the amended claim): `tag:<name>` matches
iff `name` is in the tag set, `id:<value>` iff the id equals `value`,
a pattern containing `*` as a glob over the entire name, any other
pattern iff it equals the name exactly. -/
def specIsProtected (glob : List Char → List Char → Bool)
    (patterns : List String) (r : Resource) : Bool :=
  patterns.any fun pat =>
    if jsStartsWith pat "tag:" then r.tags.any fun t => t = jsDrop pat 4
    else if jsStartsWith pat "id:" then decide (r.id = jsDrop pat 3)
    else if jsContainsChar pat '*' then glob pat.data r.name.data
    else decide (r.name = pat)

/-- The filter as the specification words it: the output contains exactly
those input resources that match no protection pattern and, only when the
kind allow-list is non-empty, whose kind is in the allow-list. -/
def specFilter (glob : List Char → List Char → Bool) (patterns : List String)
    (allowedTypes : List ResourceType) (resources : List Resource) : List Resource :=
  resources.filter fun r =>
    !specIsProtected glob patterns r &&
      (allowedTypes.isEmpty || allowedTypes.contains r.type)

/-! ### Size accountant (`SizeCalculator` in `src/utils/SizeCalculator.ts`) -/

/-- `SizeCalculator.verifySpaceFreed` (lines 253-260): if `predicted` is
zero, accept exactly the non-negative actuals; otherwise accept iff
`|predicted - actual| / predicted ≤ tolerance`. -/
def verifySpaceFreed (predicted actual : ℚ) (tolerance : ℚ) : Bool :=
  if predicted = 0 then decide (0 ≤ actual)
  else decide (|predicted - actual| / predicted ≤ tolerance)

/-- The default tolerance of `verifySpaceFreed` is `0.05`. -/
def defaultTolerance : ℚ := 1 / 20

/-! ### Backup filename generation (`BackupManager` in
`src/managers/BackupManager.ts`) -/

/-- The wall-clock value observed by `new Date()` in
`generateBackupFilename`, at the millisecond resolution JavaScript
exposes. -/
structure JsTimestamp where
  year : Nat
  month : Nat
  day : Nat
  hour : Nat
  minute : Nat
  second : Nat
  ms : Nat
deriving DecidableEq, Repr

/-- Decimal rendering zero-padded to two digits. -/
def pad2 (n : Nat) : String :=
  if n < 10 then "0" ++ toString n else toString n

/-- Decimal rendering zero-padded to three digits. -/
def pad3 (n : Nat) : String :=
  if n < 10 then "00" ++ toString n
  else if n < 100 then "0" ++ toString n
  else toString n

/-- Decimal rendering zero-padded to four digits. -/
def pad4 (n : Nat) : String :=
  if n < 10 then "000" ++ toString n
  else if n < 100 then "00" ++ toString n
  else if n < 1000 then "0" ++ toString n
  else toString n

/-- `Date.prototype.toISOString`: `YYYY-MM-DDTHH:MM:SS.mmmZ`. -/
def toISOString (t : JsTimestamp) : String :=
  pad4 t.year ++ "-" ++ pad2 t.month ++ "-" ++ pad2 t.day ++ "T" ++
    pad2 t.hour ++ ":" ++ pad2 t.minute ++ ":" ++ pad2 t.second ++ "." ++
    pad3 t.ms ++ "Z"

/-- `.replace(/[:.]/g, '-')`: every colon and every dot becomes a dash. -/
def replaceColonDot (s : String) : String :=
  String.mk (s.data.map fun c => if c = ':' || c = '.' then '-' else c)

/-- `.replace('T', '_')` with a string argument replaces only the first
occurrence. -/
def replaceFirstChar (target repl : Char) : List Char → List Char
  | [] => []
  | c :: cs => if c = target then repl :: cs else c :: replaceFirstChar target repl cs

/-- `.split('.')[0]`: the prefix before the first dot (the whole string
when no dot occurs). -/
def beforeFirstDot (s : String) : String :=
  String.mk (s.data.takeWhile fun c => c ≠ '.')

/-- `BackupManager.generateBackupFilename` (lines 149-156): render the
current time as an ISO string, replace all colons and dots with dashes,
replace the `T` with an underscore, then split on `.` and keep the first
part.  Note that after the global `[:.]` replacement no dot remains, so
the final `split('.')[0]` keeps the entire string, milliseconds included,
despite the source comment "Remove milliseconds". -/
def generateBackupFilename (t : JsTimestamp) : String :=
  "cleanup_" ++
    beforeFirstDot (String.mk (replaceFirstChar 'T' '_' (replaceColonDot (toISOString t)).data)) ++
    ".backup.json"

/-! ### Docker client model (`IDockerClient`, an external collaborator)

Listing calls are read-only functions of an abstract backing state `σ`;
destructive remove calls transform the state and may fail.  A failing
`Except` models a rejected promise (a thrown JavaScript exception). -/

structure DockerClient (σ : Type) where
  /-- `listContainers(true)`: the full container list, stopped included. -/
  listContainers : σ → Except String (List Resource)
  listImages : σ → Except String (List Resource)
  listVolumes : σ → Except String (List Resource)
  listNetworks : σ → Except String (List Resource)
  removeContainer : String → σ → Except String σ
  removeImage : String → σ → Except String σ
  removeVolume : String → σ → Except String σ
  removeNetwork : String → σ → Except String σ

/-- One invocation of a destructive remove operation on the client,
recorded in the call trace. -/
inductive RemoveCall where
  | container (id : String)
  | image (id : String)
  | volume (id : String)
  | network (id : String)
deriving DecidableEq, Repr

/-! ### Resource scanner (`src/scanners/ResourceScanner.ts`) -/

/-- The status test of `ResourceScanner.scanContainers` (lines 41-43):
a container is unused iff its status is `stopped` or `exited`. -/
def isStoppedOrExited (r : Resource) : Bool :=
  r.status = ContainerStatus.stopped || r.status = ContainerStatus.exited

/-- `ResourceScanner.scanContainers` (lines 35-47), as a function of the
container list returned by `listContainers(true)` and the scanner's
configured protection patterns: keep the stopped/exited containers, then
drop protected ones.  The scanner's `ResourceFilter` is constructed with
patterns only, so its `allowedTypes` list is empty. -/
def scanContainers (containers : List Resource) (patterns : List String) :
    List Resource :=
  filterProtected patterns [] (containers.filter isStoppedOrExited)

/-- `ResourceScanner.scanImages` (lines 53-82), as a function of the full
container list and the image list: every image's `usedByContainers` field
is recomputed from the container list, images used by no container are
kept, and protected ones dropped. -/
def scanImages (containers images : List Resource) (patterns : List String) :
    List Resource :=
  let imagesWithUsage :=
    (images.map fun image =>
      { image with usedByContainers :=
          (containers.filter fun c => c.imageId = image.id).map Resource.id }).filter
      fun image => image.usedByContainers.isEmpty
  filterProtected patterns [] imagesWithUsage

/-- `ResourceScanner.scanVolumes` (lines 88-122): every volume's
`usedByContainers` field is recomputed from the containers mounting it,
volumes mounted by no container are kept, and protected ones dropped. -/
def scanVolumes (containers volumes : List Resource) (patterns : List String) :
    List Resource :=
  let volumesWithUsage :=
    (volumes.map fun volume =>
      { volume with usedByContainers :=
          (containers.filter fun c => c.volumes.contains volume.name).map Resource.id }).filter
      fun volume => volume.usedByContainers.isEmpty
  filterProtected patterns [] volumesWithUsage

/-- The reserved default network names of `ResourceScanner.scanNetworks`. -/
def defaultNetworks : List String := ["bridge", "host", "none"]

/-- `ResourceScanner.scanNetworks` (lines 129-145): keep non-default
networks with no connected containers, then drop protected ones. -/
def scanNetworks (networks : List Resource) (patterns : List String) :
    List Resource :=
  filterProtected patterns []
    (networks.filter fun network =>
      !defaultNetworks.contains network.name && network.connectedContainers.isEmpty)

/-- `ResourceScanner.isResourceInUse` (lines 152-182): reload the full
container list, then dispatch on the resource kind.  Faithful to the
source: the `container` case consults the `status` field stored in the
resource object and the `network` case the stored `connectedContainers`
field — neither consults the freshly reloaded list — while the `image`
and `volume` cases recompute usage from the fresh list.  The `default`
case (kind `cache`) reports not in use. -/
def isResourceInUse (client : DockerClient σ) (st : σ) (r : Resource) :
    Except String Bool :=
  match client.listContainers st with
  | Except.error e => Except.error e
  | Except.ok fresh =>
    match r.type with
    | ResourceType.container => Except.ok (r.status = ContainerStatus.running)
    | ResourceType.image => Except.ok (fresh.any fun c => c.imageId = r.id)
    | ResourceType.volume => Except.ok (fresh.any fun c => c.volumes.contains r.name)
    | ResourceType.network => Except.ok (!r.connectedContainers.isEmpty)
    | ResourceType.cache => Except.ok false

/-- One entry of a cleanup pass's `errors` array: the resource and the
thrown error's message. -/
structure CleanupErrorEntry where
  resource : Resource
  message : String
deriving DecidableEq, Repr

/-- The `{removed, skipped, errors}` value returned by a cleanup pass. -/
structure CleanupOutcome where
  removed : List Resource
  skipped : List Resource
  errors : List CleanupErrorEntry
deriving DecidableEq, Repr

/-- How one iteration of the cleanup loop classifies its resource. -/
inductive StepTag where
  | removedTag
  | skippedTag
  | erroredTag (message : String)
deriving DecidableEq, Repr

/-- One iteration of the loop body of `ResourceScanner.performCleanup`
(lines 193-234): re-check `isResourceInUse`; if in use, skip; in dry-run
mode, simulate the removal; otherwise dispatch on the kind and invoke the
matching client remove operation (recording the call in the trace), with
the `default` branch skipping; any thrown error becomes an error entry. -/
def cleanupStep (client : DockerClient σ) (dryRun : Bool) (r : Resource)
    (st : σ) : StepTag × σ × List RemoveCall :=
  match isResourceInUse client st r with
  | Except.error e => (StepTag.erroredTag e, st, [])
  | Except.ok true => (StepTag.skippedTag, st, [])
  | Except.ok false =>
    if dryRun then (StepTag.removedTag, st, [])
    else
      match r.type with
      | ResourceType.container =>
        match client.removeContainer r.id st with
        | Except.ok st' => (StepTag.removedTag, st', [RemoveCall.container r.id])
        | Except.error e => (StepTag.erroredTag e, st, [RemoveCall.container r.id])
      | ResourceType.image =>
        match client.removeImage r.id st with
        | Except.ok st' => (StepTag.removedTag, st', [RemoveCall.image r.id])
        | Except.error e => (StepTag.erroredTag e, st, [RemoveCall.image r.id])
      | ResourceType.volume =>
        match client.removeVolume r.id st with
        | Except.ok st' => (StepTag.removedTag, st', [RemoveCall.volume r.id])
        | Except.error e => (StepTag.erroredTag e, st, [RemoveCall.volume r.id])
      | ResourceType.network =>
        match client.removeNetwork r.id st with
        | Except.ok st' => (StepTag.removedTag, st', [RemoveCall.network r.id])
        | Except.error e => (StepTag.erroredTag e, st, [RemoveCall.network r.id])
      | ResourceType.cache => (StepTag.skippedTag, st, [])

/-- `ResourceScanner.performCleanup` (lines 188-238): iterate the input
resources sequentially, classifying each into exactly one of `removed`,
`skipped` or `errors`, threading the backing state and accumulating the
trace of destructive client calls. -/
def performCleanup (client : DockerClient σ) (dryRun : Bool) :
    List Resource → σ → CleanupOutcome × σ × List RemoveCall
  | [], st => (⟨[], [], []⟩, st, [])
  | r :: rest, st =>
    match cleanupStep client dryRun r st with
    | (StepTag.removedTag, st', calls) =>
      let next := performCleanup client dryRun rest st'
      ({ next.1 with removed := r :: next.1.removed }, next.2.1, calls ++ next.2.2)
    | (StepTag.skippedTag, st', calls) =>
      let next := performCleanup client dryRun rest st'
      ({ next.1 with skipped := r :: next.1.skipped }, next.2.1, calls ++ next.2.2)
    | (StepTag.erroredTag e, st', calls) =>
      let next := performCleanup client dryRun rest st'
      ({ next.1 with errors := ⟨r, e⟩ :: next.1.errors }, next.2.1, calls ++ next.2.2)

/-! ### Cleanup orchestrator (`CleanupOrchestrator` in `src/utils`,
`SizeCalculator.ts` concatenation, lines 435-755) -/

/-- Stable insertion of a resource into a size-descending list: the
resource goes before the first element whose size is not larger.  This is
the effect of the stable JavaScript `sort((a, b) => b.size - a.size)` in
`SizeCalculator.sortResourcesBySize`. -/
def insertBySizeDesc (r : Resource) : List Resource → List Resource
  | [] => [r]
  | x :: xs => if x.size ≤ r.size then r :: x :: xs else x :: insertBySizeDesc r xs

/-- `SizeCalculator.sortResourcesBySize`: stable sort by size, largest
first, ties kept in input order. -/
def sortResourcesBySize (resources : List Resource) : List Resource :=
  resources.foldr insertBySizeDesc []

/-- The `cleanup` section of `CleanupConfig` that the orchestrator
consults (`dryRun`, `backupEnabled`, `resourceTypes`; the protection
patterns live in the scanner's `ResourceFilter`). -/
structure Config where
  dryRun : Bool
  backupEnabled : Bool
  resourceTypes : List ResourceType
deriving DecidableEq, Repr

/-- `BackupResult` from `src/types/index.ts`. -/
structure BackupResult where
  success : Bool
  backupPath : String
  error : Option String
deriving DecidableEq, Repr

/-- The collaborators of one orchestrator run: the Docker client, the
scanner's configured protection patterns, the connect outcome, the size
oracle standing for `SizeCalculator.calculateResourceSize` (which shells
out to `docker`/`du` and falls back to the stored size), the disk-space
oracle standing for `df`, and the backup recorder's `createBackup`. -/
structure OrchEnv (σ : Type) where
  client : DockerClient σ
  patterns : List String
  connectResult : Except String Unit
  sizeOf : Resource → Nat
  diskSpace : σ → Nat
  createBackup : List Resource → BackupResult

/-- `Report`, reduced to the fields the orchestrator computes (timestamps
and log paths are external I/O). -/
structure Report where
  dryRunMode : Bool
  resourcesScanned : Nat
  resourcesRemoved : Nat
  diskSpaceFreed : Nat
  removed : List Resource
  skipped : List Resource
  errors : List CleanupErrorEntry
deriving DecidableEq, Repr

/-- `CleanupOrchestrator.performCleanup` (lines 691-747): for each
resource, re-run the safety oracle; if in use, skip; otherwise delegate
to the scanner's `performCleanup` on the singleton list and append its
`removed`/`skipped`/`errors` to the accumulators; a thrown error (here:
a failing `isResourceInUse`) becomes one error entry. -/
def orchPerformCleanup (client : DockerClient σ) (scannerDryRun : Bool) :
    List Resource → σ → CleanupOutcome × σ × List RemoveCall
  | [], st => (⟨[], [], []⟩, st, [])
  | r :: rest, st =>
    match isResourceInUse client st r with
    | Except.error e =>
      let next := orchPerformCleanup client scannerDryRun rest st
      ({ next.1 with errors := ⟨r, e⟩ :: next.1.errors }, next.2.1, next.2.2)
    | Except.ok true =>
      let next := orchPerformCleanup client scannerDryRun rest st
      ({ next.1 with skipped := r :: next.1.skipped }, next.2.1, next.2.2)
    | Except.ok false =>
      let single := performCleanup client scannerDryRun [r] st
      let next := orchPerformCleanup client scannerDryRun rest single.2.1
      (⟨single.1.removed ++ next.1.removed, single.1.skipped ++ next.1.skipped,
          single.1.errors ++ next.1.errors⟩,
        next.2.1, single.2.2 ++ next.2.2)

/-- `CleanupOrchestrator.scanResources` (lines 607-626) followed by
`flattenScanResult` (lines 631-638): run the four kind scans and
concatenate containers, images, volumes, networks.  The four scans are
independent reads of the same backing state, so issuing them concurrently
(the source's `Promise.all`) and sequentially coincide; the scanner's
container cache is filled by `scanContainers` from the same read-only
state that a cache miss would re-read. -/
def scanAllResources (env : OrchEnv σ) (st : σ) : Except String (List Resource) :=
  match env.client.listContainers st with
  | Except.error e => Except.error e
  | Except.ok containers =>
    match env.client.listImages st with
    | Except.error e => Except.error e
    | Except.ok images =>
      match env.client.listVolumes st with
      | Except.error e => Except.error e
      | Except.ok volumes =>
        match env.client.listNetworks st with
        | Except.error e => Except.error e
        | Except.ok networks =>
          Except.ok
            (scanContainers containers env.patterns ++
              scanImages containers images env.patterns ++
              scanVolumes containers volumes env.patterns ++
              scanNetworks networks env.patterns)

/-- Steps 3-5 of `CleanupOrchestrator.executeCleanup`: filter by the
configured resource types when that list is non-empty
(`filterResources`, lines 643-652), assign accurate sizes
(`calculateResourceSizes`), and sort descending by size. -/
def candidateResources (env : OrchEnv σ) (cfg : Config)
    (allResources : List Resource) : List Resource :=
  let filtered :=
    if cfg.resourceTypes.length > 0 then
      allResources.filter fun r => cfg.resourceTypes.contains r.type
    else allResources
  let withSizes := filtered.map fun r => { r with size := env.sizeOf r }
  sortResourcesBySize withSizes

/-- `SizeCalculator.calculateTotalSize`: the sum of the per-resource
sizes computed by the size oracle. -/
def calculateTotalSize (env : OrchEnv σ) (resources : List Resource) : Nat :=
  (resources.map env.sizeOf).sum

/-- `CleanupOrchestrator.executeCleanup` (lines 462-555): connect, scan,
filter, size, sort, back up (in destructive mode with backups enabled,
aborting on failure), record disk space, run the removal loop, record
disk space again, verify (warning only), and assemble the report.  A
`.error` result models the function throwing (the catch block re-throws
after producing its minimal error report).  `scannerDryRun` is the
scanner's own dry-run flag, kept in sync with `cfg.dryRun` by
`executeDryRun`/`updateConfig`. -/
def executeCleanup (env : OrchEnv σ) (cfg : Config) (scannerDryRun : Bool)
    (st : σ) : Except String Report × σ × List RemoveCall :=
  match env.connectResult with
  | Except.error e => (Except.error e, st, [])
  | Except.ok _ =>
    match scanAllResources env st with
    | Except.error e => (Except.error e, st, [])
    | Except.ok allResources =>
      let sorted := candidateResources env cfg allResources
      let backupOutcome : Except String Unit :=
        if cfg.backupEnabled && !cfg.dryRun then
          let b := env.createBackup sorted
          if b.success then Except.ok ()
          else Except.error ("Backup failed: " ++ b.error.getD "")
        else Except.ok ()
      match backupOutcome with
      | Except.error e => (Except.error e, st, [])
      | Except.ok _ =>
        let before := env.diskSpace st
        let run := orchPerformCleanup env.client scannerDryRun sorted st
        let after := env.diskSpace run.2.1
        let actualFreed := after - before
        let freed :=
          if cfg.dryRun then calculateTotalSize env run.1.removed else actualFreed
        (Except.ok
          { dryRunMode := cfg.dryRun
            resourcesScanned := allResources.length
            resourcesRemoved := run.1.removed.length
            diskSpaceFreed := freed
            removed := run.1.removed
            skipped := run.1.skipped
            errors := run.1.errors },
          run.2.1, run.2.2)

/-- `CleanupOrchestrator.executeDryRun` (lines 560-574): force dry-run
mode on both the config and the scanner for the duration of one
`executeCleanup` run (the `finally` block restores the previous flags,
which passing the config by value makes a no-op here). -/
def executeDryRun (env : OrchEnv σ) (cfg : Config) (st : σ) :
    Except String Report × σ × List RemoveCall :=
  executeCleanup env { cfg with dryRun := true } true st

/-! ### Helper lemmas -/

/-- With an empty pattern list and no kind restriction the protection
filter keeps everything. -/
theorem filterProtected_empty_patterns (rs : List Resource) :
    filterProtected [] [] rs = rs := by
  simp [filterProtected, isProtected]

/-- The protection filter only ever drops elements. -/
theorem mem_of_mem_filterProtected {pats : List String}
    {kinds : List ResourceType} {rs : List Resource} {r : Resource}
    (h : r ∈ filterProtected pats kinds rs) : r ∈ rs := by
  unfold filterProtected at h
  split at h
  · exact (List.mem_filter.mp (List.mem_filter.mp h).1).1
  · exact (List.mem_filter.mp h).1

/-! ### Concrete fixtures -/

/-- A docker client over the trivial backing state whose container listing
always returns `cs`, whose other listings are empty, and whose remove
operations always succeed. -/
def clientOf (cs : List Resource) : DockerClient Unit where
  listContainers := fun _ => Except.ok cs
  listImages := fun _ => Except.ok []
  listVolumes := fun _ => Except.ok []
  listNetworks := fun _ => Except.ok []
  removeContainer := fun _ _ => Except.ok ()
  removeImage := fun _ _ => Except.ok ()
  removeVolume := fun _ _ => Except.ok ()
  removeNetwork := fun _ _ => Except.ok ()

/-- A container resource as captured by an earlier scan: stopped then. -/
def staleContainer : Resource :=
  { id := "c1", name := "c1", type := ResourceType.container, size := 0,
    status := ContainerStatus.stopped }

/-- The same container as the live system now reports it: running. -/
def liveContainer : Resource := { staleContainer with status := ContainerStatus.running }

/-- A network resource as captured by an earlier scan, with one connected
container recorded then. -/
def staleNetwork : Resource :=
  { id := "n1", name := "n1", type := ResourceType.network, size := 0,
    connectedContainers := ["gone"] }

/-- A stopped container named `x`. -/
def stoppedX : Resource :=
  { id := "cx", name := "x", type := ResourceType.container, size := 0,
    status := ContainerStatus.stopped }

/-- A resource of the fifth kind admitted by `ResourceType`, `cache`. -/
def cacheRes : Resource :=
  { id := "k", name := "k", type := ResourceType.cache, size := 0 }

/-! ### Claims -/

/-- C1: `isResourceInUse` is claimed to re-evaluate the in-use verdict
from the freshly reloaded container list alone.  The code instead reads
the `status` field stored in a container resource and the
`connectedContainers` field stored in a network resource.  Evaluated at
the failing inputs: a container scanned as stopped is reported not in use
although the fresh listing reports the very same id as running, and a
network with a recorded connection is reported in use although the fresh
listing reports no containers at all. -/
theorem claim_c1_stale_verdict :
    isResourceInUse (clientOf [liveContainer]) () staleContainer = Except.ok false ∧
    (clientOf [liveContainer]).listContainers () = Except.ok [liveContainer] ∧
    liveContainer.id = staleContainer.id ∧
    liveContainer.status = ContainerStatus.running ∧
    staleContainer.status = ContainerStatus.stopped ∧
    isResourceInUse (clientOf []) () staleNetwork = Except.ok true ∧
    (clientOf []).listContainers () = Except.ok [] :=
  ⟨rfl, rfl, rfl, rfl, rfl, rfl, rfl⟩

/-- C2 counterexample: with a configured protection pattern, the container
scan does not equal the stopped-or-exited subset — the protected stopped
container `x` is dropped. -/
theorem claim_c2_counterexample :
    scanContainers [stoppedX] ["x"] ≠ [stoppedX].filter isStoppedOrExited := by
  decide

/-- C2 (amended): every container returned by the scan is stopped or
exited (so no running container is ever included), and with the default
empty protection-pattern list the scan returns exactly the stopped or
exited containers. -/
theorem claim_c2_scan_containers (containers : List Resource) (patterns : List String) :
    (∀ r ∈ scanContainers containers patterns, isStoppedOrExited r = true) ∧
    scanContainers containers [] = containers.filter isStoppedOrExited := by
  constructor
  · intro r hr
    have hmem : r ∈ containers.filter isStoppedOrExited :=
      mem_of_mem_filterProtected hr
    exact (List.mem_filter.mp hmem).2
  · unfold scanContainers
    exact filterProtected_empty_patterns _

/-- C2 witness: on the concrete one-element fixture the scan keeps the
stopped container, and it is indeed stopped-or-exited. -/
theorem claim_c2_scan_containers_witness :
    isStoppedOrExited stoppedX = true ∧ scanContainers [stoppedX] [] = [stoppedX] :=
  ⟨(claim_c2_scan_containers [stoppedX] []).1 stoppedX (by decide),
    ((claim_c2_scan_containers [stoppedX] []).2).trans (by decide)⟩

/-- C3: no image whose id appears as some container's `imageId` — the
container list being the full one, stopped containers included — is ever
returned by the image scan. -/
theorem claim_c3_safe_images (containers images : List Resource)
    (patterns : List String) :
    ∀ img ∈ scanImages containers images patterns,
      ∀ c ∈ containers, c.imageId ≠ img.id := by
  intro img hmem c hc
  unfold scanImages at hmem
  have hmem' := mem_of_mem_filterProtected hmem
  obtain ⟨h₁, h₂⟩ := List.mem_filter.mp hmem'
  obtain ⟨i₀, hi₀, hEq⟩ := List.mem_map.mp h₁
  subst hEq
  simp only [List.isEmpty_iff, List.map_eq_nil_iff, List.filter_eq_nil_iff] at h₂
  intro hid
  exact h₂ c hc (by simpa using hid)

/-- Containers for the specification's scenario: two stopped containers
referencing images `a` and `b`, one running container referencing `c`. -/
def scenarioContainers : List Resource :=
  [{ id := "s1", name := "s1", type := ResourceType.container, size := 0,
      status := ContainerStatus.stopped, imageId := "a" },
    { id := "s2", name := "s2", type := ResourceType.container, size := 0,
      status := ContainerStatus.stopped, imageId := "b" },
    { id := "s3", name := "s3", type := ResourceType.container, size := 0,
      status := ContainerStatus.running, imageId := "c" }]

/-- Images `a`, `b`, `c`, `d` for the specification's scenario. -/
def scenarioImages : List Resource :=
  [{ id := "a", name := "img-a", type := ResourceType.image, size := 0 },
    { id := "b", name := "img-b", type := ResourceType.image, size := 0 },
    { id := "c", name := "img-c", type := ResourceType.image, size := 0 },
    { id := "d", name := "img-d", type := ResourceType.image, size := 0 }]

/-- C3 witness: in the scenario fixture the scan returns only image `d`,
and the theorem applied to it yields `imageId a ≠ d` for the first
stopped container. -/
theorem claim_c3_safe_images_witness :
    (scenarioContainers.head?.map Resource.imageId = some "a") ∧
    ((scanImages scenarioContainers scenarioImages []).map Resource.id = ["d"]) ∧
    ("a" : String) ≠ "d" := by
  refine ⟨by decide, by decide, ?_⟩
  have h := claim_c3_safe_images scenarioContainers scenarioImages []
    { id := "d", name := "img-d", type := ResourceType.image, size := 0 }
    (by decide)
    { id := "s1", name := "s1", type := ResourceType.container, size := 0,
      status := ContainerStatus.stopped, imageId := "a" }
    (by decide)
  exact h

/-- C6: the backup filename is a pure function of the wall clock at
millisecond resolution, with no per-call counter: evaluated concretely,
the name embeds the milliseconds (the source's `split('.')[0]`, meant to
"Remove milliseconds", runs after every dot has already been replaced, so
it keeps the whole string), and two calls observing the same millisecond
— necessarily within the same wall-clock second — generate the identical
name, which `saveBackup`'s `writeFile` then silently overwrites. -/
theorem claim_c6_filename_collision :
    generateBackupFilename ⟨2024, 1, 1, 0, 0, 0, 0⟩ =
      "cleanup_2024-01-01_00-00-00-000Z.backup.json" ∧
    generateBackupFilename ⟨2024, 1, 1, 0, 0, 0, 1⟩ =
      "cleanup_2024-01-01_00-00-00-001Z.backup.json" :=
  ⟨by decide, by decide⟩

/-- C8: `verifySpaceFreed` at the default tolerance accepts exactly the
non-negative actuals when the prediction is zero, and otherwise accepts
iff the relative difference is at most 5%; `verifyFreed(p, p)` always
holds, 1000/950 and 1000/1050 are accepted, 1000/900 is rejected. -/
theorem claim_c8_verify_freed :
    (∀ p a : ℚ, p = 0 →
      (verifySpaceFreed p a defaultTolerance = true ↔ 0 ≤ a)) ∧
    (∀ p a : ℚ, p ≠ 0 →
      (verifySpaceFreed p a defaultTolerance = true ↔
        |p - a| / p ≤ defaultTolerance)) ∧
    (∀ p : ℚ, verifySpaceFreed p p defaultTolerance = true) ∧
    verifySpaceFreed 1000 950 defaultTolerance = true ∧
    verifySpaceFreed 1000 1050 defaultTolerance = true ∧
    verifySpaceFreed 1000 900 defaultTolerance = false := by
  refine ⟨?_, ?_, ?_, ?_, ?_, ?_⟩
  · intro p a hp; simp [verifySpaceFreed, hp]
  · intro p a hp; simp [verifySpaceFreed, hp]
  · intro p
    by_cases hp : p = 0
    · simp [verifySpaceFreed, hp]
    · simp only [verifySpaceFreed, hp, if_neg]
      simp [defaultTolerance]
  · norm_num [verifySpaceFreed, defaultTolerance]
  · norm_num [verifySpaceFreed, defaultTolerance]
  · norm_num [verifySpaceFreed, defaultTolerance]

/-- C8 witness: the zero-prediction and non-zero-prediction clauses
applied at concrete inputs. -/
theorem claim_c8_verify_freed_witness :
    verifySpaceFreed 0 7 defaultTolerance = true ∧
    verifySpaceFreed 200 195 defaultTolerance = true :=
  ⟨(claim_c8_verify_freed.1 0 7 rfl).mpr (by norm_num),
    (claim_c8_verify_freed.2.1 200 195 (by norm_num)).mpr (by norm_num [defaultTolerance])⟩

/-- C10: a resource whose kind is not one of the four removable kinds —
the type union's fifth member `cache` — is reported not in use by the
safety oracle and classified as skipped by the kind dispatch's default
branch; no remove operation is invoked on it even in a destructive pass. -/
theorem claim_c10_cache_skipped (σ : Type) (client : DockerClient σ) (st : σ)
    (r : Resource) (cs : List Resource) (hty : r.type = ResourceType.cache)
    (hls : client.listContainers st = Except.ok cs) :
    isResourceInUse client st r = Except.ok false ∧
    performCleanup client false [r] st = (⟨[], [r], []⟩, st, []) := by
  have h1 : isResourceInUse client st r = Except.ok false := by
    unfold isResourceInUse
    rw [hls, hty]
  have h2 : cleanupStep client false r st = (StepTag.skippedTag, st, []) := by
    unfold cleanupStep
    rw [h1, hty]
    rfl
  refine ⟨h1, ?_⟩
  simp [performCleanup, h2]

/-- C10 witness: the trivial client and the concrete `cache` resource. -/
theorem claim_c10_cache_skipped_witness :
    isResourceInUse (clientOf []) () cacheRes = Except.ok false ∧
    performCleanup (clientOf []) false [cacheRes] () = (⟨[], [cacheRes], []⟩, (), []) :=
  claim_c10_cache_skipped Unit (clientOf []) () cacheRes [] rfl rfl

/-! ### Partition and dry-run lemmas for the cleanup loops -/

/-- The resources an outcome accounts for: removed, skipped, and the
resources attached to error entries. -/
def outcomeResources (o : CleanupOutcome) : List Resource :=
  o.removed ++ o.skipped ++ o.errors.map CleanupErrorEntry.resource

/-- Gluing two three-way partitions of adjacent segments. -/
theorem perm_partition_glue {α : Type} {a₁ b₁ c₁ a₂ b₂ c₂ x y : List α}
    (h₁ : (a₁ ++ (b₁ ++ c₁)).Perm x) (h₂ : (a₂ ++ (b₂ ++ c₂)).Perm y) :
    (a₁ ++ (a₂ ++ (b₁ ++ (b₂ ++ (c₁ ++ c₂))))).Perm (x ++ y) := by
  have key : (a₁ ++ (a₂ ++ (b₁ ++ (b₂ ++ (c₁ ++ c₂))))).Perm
      ((a₁ ++ (b₁ ++ c₁)) ++ (a₂ ++ (b₂ ++ c₂))) := by
    refine Multiset.coe_eq_coe.mp ?_
    simp only [← Multiset.coe_add]
    abel
  exact key.trans (h₁.append h₂)

/-- The scanner's cleanup loop partitions its input: up to permutation,
removed + skipped + error-entry resources are exactly the input list, each
input resource accounted for exactly once. -/
theorem performCleanup_partition (σ : Type) (client : DockerClient σ)
    (dryRun : Bool) :
    ∀ (rs : List Resource) (st : σ),
      (outcomeResources (performCleanup client dryRun rs st).1).Perm rs := by
  intro rs
  induction rs with
  | nil => intro st; simp [performCleanup, outcomeResources]
  | cons r rest ih =>
    intro st
    rcases h : cleanupStep client dryRun r st with ⟨tag, st', calls⟩
    cases tag with
    | removedTag =>
      simp only [performCleanup, h, outcomeResources, List.cons_append,
        List.append_assoc, List.perm_cons] at ih ⊢
      exact ih st'
    | skippedTag =>
      simp only [performCleanup, h, outcomeResources, List.cons_append,
        List.append_assoc] at ih ⊢
      exact List.perm_middle.trans ((ih st').cons r)
    | erroredTag e =>
      simp only [performCleanup, h, outcomeResources, List.map_cons,
        List.append_assoc] at ih ⊢
      exact ((List.Perm.append_left _ List.perm_middle).trans
        (List.perm_middle.trans ((ih st').cons r)))

/-- The orchestrator's cleanup loop partitions its input as well: each
iteration contributes its resource exactly once, directly or through the
scanner's singleton pass. -/
theorem orchPerformCleanup_partition (σ : Type) (client : DockerClient σ)
    (scannerDryRun : Bool) :
    ∀ (rs : List Resource) (st : σ),
      (outcomeResources (orchPerformCleanup client scannerDryRun rs st).1).Perm rs := by
  intro rs
  induction rs with
  | nil => intro st; simp [orchPerformCleanup, outcomeResources]
  | cons r rest ih =>
    intro st
    rcases h : isResourceInUse client st r with e | b
    · simp only [orchPerformCleanup, h, outcomeResources, List.map_cons,
        List.append_assoc] at ih ⊢
      exact ((List.Perm.append_left _ List.perm_middle).trans
        (List.perm_middle.trans ((ih st).cons r)))
    · cases b with
      | true =>
        simp only [orchPerformCleanup, h, outcomeResources, List.cons_append,
          List.append_assoc] at ih ⊢
        exact List.perm_middle.trans ((ih st).cons r)
      | false =>
        have hsingle := performCleanup_partition σ client scannerDryRun [r] st
        simp only [outcomeResources, List.append_assoc] at hsingle
        simp only [orchPerformCleanup, h, outcomeResources, List.map_append,
          List.append_assoc] at ih ⊢
        exact perm_partition_glue hsingle (ih _)

/-- C4: both cleanup passes produce a closed partition — up to order,
removed + skipped + error-entry resources are exactly the input list, so
every input resource is accounted for exactly once and never twice. -/
theorem claim_c4_closed_partition (σ : Type) (client : DockerClient σ)
    (dryRun : Bool) (rs : List Resource) (st : σ) :
    (outcomeResources (performCleanup client dryRun rs st).1).Perm rs ∧
    (outcomeResources (orchPerformCleanup client dryRun rs st).1).Perm rs :=
  ⟨performCleanup_partition σ client dryRun rs st,
    orchPerformCleanup_partition σ client dryRun rs st⟩

/-- In dry-run mode one loop iteration leaves the backing state unchanged
and invokes no remove operation. -/
theorem cleanupStep_dryRun (σ : Type) (client : DockerClient σ) (r : Resource)
    (st : σ) :
    (cleanupStep client true r st).2.1 = st ∧ (cleanupStep client true r st).2.2 = [] := by
  unfold cleanupStep
  rcases h : isResourceInUse client st r with e | b
  · simp
  · cases b <;> simp

/-- In dry-run mode the scanner's cleanup loop leaves the backing state
unchanged and its remove-call trace empty. -/
theorem performCleanup_dryRun (σ : Type) (client : DockerClient σ) :
    ∀ (rs : List Resource) (st : σ),
      (performCleanup client true rs st).2.1 = st ∧
        (performCleanup client true rs st).2.2 = [] := by
  intro rs
  induction rs with
  | nil => intro st; exact ⟨rfl, rfl⟩
  | cons r rest ih =>
    intro st
    rcases h : cleanupStep client true r st with ⟨tag, st', calls⟩
    have hstep := cleanupStep_dryRun σ client r st
    rw [h] at hstep
    obtain ⟨hst', hcalls⟩ := hstep
    have hst2 : st' = st := hst'
    have hcalls2 : calls = [] := hcalls
    subst hst2
    subst hcalls2
    cases tag <;> simp only [performCleanup, h] <;> simpa using ih st'

/-- In dry-run mode the orchestrator's cleanup loop leaves the backing
state unchanged and its remove-call trace empty. -/
theorem orchPerformCleanup_dryRun (σ : Type) (client : DockerClient σ) :
    ∀ (rs : List Resource) (st : σ),
      (orchPerformCleanup client true rs st).2.1 = st ∧
        (orchPerformCleanup client true rs st).2.2 = [] := by
  intro rs
  induction rs with
  | nil => intro st; exact ⟨rfl, rfl⟩
  | cons r rest ih =>
    intro st
    rcases h : isResourceInUse client st r with e | b
    · simp only [orchPerformCleanup, h]
      simpa using ih st
    · cases b with
      | true =>
        simp only [orchPerformCleanup, h]
        simpa using ih st
      | false =>
        have hsingle := performCleanup_dryRun σ client [r] st
        simp only [orchPerformCleanup, h]
        simp [hsingle.1, hsingle.2, ih st]

/-- C9: a Preview pass never invokes a destructive remove operation and
leaves the backing state unchanged — at the scanner level, at the
orchestrator loop level, and through `executeDryRun` — and re-running the
same Preview pass against the resulting (unchanged) state yields the
identical outcome. -/
theorem claim_c9_dry_run_pure (σ : Type) (client : DockerClient σ)
    (rs : List Resource) (st : σ) (env : OrchEnv σ) (cfg : Config) :
    (performCleanup client true rs st).2.1 = st ∧
    (performCleanup client true rs st).2.2 = [] ∧
    (performCleanup client true rs ((performCleanup client true rs st).2.1)).1 =
      (performCleanup client true rs st).1 ∧
    (orchPerformCleanup client true rs st).2.1 = st ∧
    (orchPerformCleanup client true rs st).2.2 = [] ∧
    (executeDryRun env cfg st).2.1 = st ∧
    (executeDryRun env cfg st).2.2 = [] ∧
    (executeDryRun env cfg ((executeDryRun env cfg st).2.1)).1 =
      (executeDryRun env cfg st).1 := by
  have hperf := performCleanup_dryRun σ client rs st
  have horch := orchPerformCleanup_dryRun σ client rs st
  have hexec : (executeDryRun env cfg st).2.1 = st ∧ (executeDryRun env cfg st).2.2 = [] := by
    unfold executeDryRun executeCleanup
    rcases env.connectResult with e | u
    · exact ⟨rfl, rfl⟩
    · rcases hs : scanAllResources env st with e | allRes
      · exact ⟨rfl, rfl⟩
      · have horun := orchPerformCleanup_dryRun σ env.client
          (candidateResources env { cfg with dryRun := true } allRes) st
        simp [horun.1, horun.2]
  refine ⟨hperf.1, hperf.2, ?_, horch.1, horch.2, hexec.1, hexec.2, ?_⟩
  · rw [hperf.1]
  · rw [hexec.1]

/-- C5: in a destructive run with backups enabled, a failing
`createBackup` aborts the run before any removal — the result is the
thrown backup error, the backing state is untouched, and the remove-call
trace is empty (fail-closed). -/
theorem claim_c5_backup_fail_closed (σ : Type) (env : OrchEnv σ) (cfg : Config)
    (scannerDryRun : Bool) (st : σ) (allRes : List Resource)
    (hb : cfg.backupEnabled = true) (hd : cfg.dryRun = false)
    (hc : env.connectResult = Except.ok ())
    (hs : scanAllResources env st = Except.ok allRes)
    (hfail : (env.createBackup (candidateResources env cfg allRes)).success = false) :
    executeCleanup env cfg scannerDryRun st =
      (Except.error ("Backup failed: " ++
          (env.createBackup (candidateResources env cfg allRes)).error.getD ""),
        st, []) := by
  unfold executeCleanup
  rw [hc, hs]
  simp [hb, hd, hfail]

/-- An orchestrator environment whose backup recorder always fails. -/
def failingBackupEnv : OrchEnv Unit where
  client := clientOf []
  patterns := []
  connectResult := Except.ok ()
  sizeOf := fun r => r.size
  diskSpace := fun _ => 0
  createBackup := fun _ => { success := false, backupPath := "", error := some "disk full" }

/-- A destructive configuration with backups enabled. -/
def destructiveCfg : Config :=
  { dryRun := false, backupEnabled := true, resourceTypes := [] }

/-- C5 witness: with the always-failing backup recorder the run aborts
with the backup error, leaving the state and the trace untouched. -/
theorem claim_c5_backup_fail_closed_witness :
    executeCleanup failingBackupEnv destructiveCfg false () =
      (Except.error ("Backup failed: " ++ "disk full"), (), []) :=
  claim_c5_backup_fail_closed Unit failingBackupEnv destructiveCfg false () []
    rfl rfl rfl rfl rfl

/-! ### Equivalence of the compiled wildcard regex and the glob matcher -/

/-- Splitting on `*` always yields at least one (possibly empty) segment. -/
theorem splitStar_ne_nil : ∀ p : List Char, splitStar p ≠ [] := by
  intro p
  cases p with
  | nil => simp [splitStar]
  | cons c rest =>
    simp only [splitStar]
    split
    · simp
    · split <;> simp

/-- The regex compiled from a wildcard pattern matches exactly what the
glob matcher with line-terminator-free gaps matches. -/
theorem segMatch_eq_specGlobNoLT : ∀ (p n : List Char),
    segMatch false (splitStar p) n = specGlobNoLT p n := by
  intro p
  induction p with
  | nil =>
    intro n
    cases n <;> simp [splitStar, segMatch, specGlobNoLT]
  | cons c ps ih =>
    by_cases hc : c = '*'
    · subst hc
      have aux : ∀ m, segMatch true (splitStar ps) m = specGlobNoLT ('*' :: ps) m := by
        intro m
        induction m with
        | nil => simp [segMatch, specGlobNoLT, ih]
        | cons d m ihm => simp [segMatch, specGlobNoLT, ih, ihm]
      intro n
      rcases hsp : splitStar ps with _ | ⟨s', ss'⟩
      · exact absurd hsp (splitStar_ne_nil ps)
      · have hsplit : splitStar ('*' :: ps) = [] :: s' :: ss' := by
          simp [splitStar, hsp]
        rw [hsplit]
        have hstep : segMatch false ([] :: s' :: ss') n = segMatch true (s' :: ss') n := by
          simp [segMatch]
        rw [hstep, ← hsp, aux n]
    · intro n
      rcases hsp : splitStar ps with _ | ⟨s₀, rest⟩
      · exact absurd hsp (splitStar_ne_nil ps)
      have hsplit : splitStar (c :: ps) = (c :: s₀) :: rest := by
        simp [splitStar, hc, hsp]
      rw [hsplit]
      cases rest with
      | nil =>
        cases n with
        | nil => simp [segMatch, specGlobNoLT, hc]
        | cons d m =>
          have ihm := ih m
          rw [hsp] at ihm
          simp only [segMatch] at ihm
          simp [segMatch, specGlobNoLT, hc, ← ihm, List.cons.injEq, eq_comm]
      | cons s₁ rest' =>
        cases n with
        | nil => simp [segMatch, specGlobNoLT, hc]
        | cons d m =>
          have ihm := ih m
          rw [hsp] at ihm
          simp only [segMatch] at ihm
          simp [segMatch, specGlobNoLT, hc, ← ihm, List.cons.injEq, eq_comm,
            List.take_succ_cons, List.drop_succ_cons, Bool.and_assoc]

/-- The code's protection predicate agrees with the specification's
pattern grammar when the glob's `*` is read as matching any
line-terminator-free substring. -/
theorem isProtected_eq_spec (patterns : List String) (r : Resource) :
    isProtected patterns r = specIsProtected specGlobNoLT patterns r := by
  unfold isProtected specIsProtected
  congr 1
  funext pat
  simp only [wildcardTest, segMatch_eq_specGlobNoLT]

/-- A resource whose name contains a newline. -/
def newlineRes : Resource :=
  { id := "r1", name := "a\nb", type := ResourceType.container, size := 0 }

/-- C7 counterexample: for the pattern `a*b` and the name `a\nb`, the
specification's glob (`*` matches any substring) protects the resource
and excludes it from the filter's output, but the code's compiled regex
(`.` excludes line terminators) does not match, so the filter keeps it. -/
theorem claim_c7_counterexample :
    filterProtected ["a*b"] [] [newlineRes] ≠
      specFilter specGlobAny ["a*b"] [] [newlineRes] := by
  have h1 : filterProtected ["a*b"] [] [newlineRes] = [newlineRes] := by
    simp [filterProtected, isProtected, jsStartsWith, jsContainsChar,
      wildcardTest, splitStar, segMatch, isLineTerminator, newlineRes]
  have h2 : specFilter specGlobAny ["a*b"] [] [newlineRes] = [] := by
    simp [specFilter, specIsProtected, jsStartsWith, jsContainsChar,
      specGlobAny, newlineRes]
  rw [h1, h2]
  simp

/-- C7 (amended): the filter's output is exactly the input resources that
match no protection pattern and, only when the kind allow-list is
non-empty, whose kind is allowed — where the pattern grammar is the
claim's (`tag:`, `id:`, glob, exact, in that priority), amended so that
the glob's `*` matches any substring free of line-terminator characters. -/
theorem claim_c7_filter_semantics (patterns : List String)
    (kinds : List ResourceType) (rs : List Resource) :
    filterProtected patterns kinds rs = specFilter specGlobNoLT patterns kinds rs := by
  unfold filterProtected specFilter
  rcases kinds with _ | ⟨k, ks⟩
  · simp [isProtected_eq_spec]
  · rw [if_pos (by simp)]
    rw [List.filter_filter]
    simp [isProtected_eq_spec, Bool.and_comm]

end ProxmoxCleanup
